import Mathlib

/-!
Shallow embedding of `scripts/fix_markdown_encoding.py`: an ordered table of
text-replacement rules is applied to a document's text; per-rule match counts
are accumulated and the file is rewritten when the final text differs from the
original.  Text is modelled as `List Char`.  Every pattern in the table except
one is a literal string (the regex metacharacters in the source are all escaped);
the one exception is the "Target in table" rule, whose pattern is a look-behind
for a pipe, a greedy whitespace run, two question marks, a greedy whitespace run,
and a look-ahead for a pipe.  Both matchers below implement the leftmost,
non-overlapping scan that `re.findall` / `re.sub` perform for these patterns.
-/

namespace FixEncoding

/-- The characters matched by the whitespace class of the regex engine used by
the tool for a text-mode pattern. -/
def isSpaceChar (c : Char) : Bool :=
  c == ' ' || c == '\t' || c == '\n' || c == '\x0b' || c == '\x0c' || c == '\r' ||
  c == '\x1c' || c == '\x1d' || c == '\x1e' || c == '\x1f' || c == '\x85' || c == '\xa0' ||
  c == ' ' || c == ' ' || c == ' ' || c == ' ' || c == ' ' ||
  c == ' ' || c == ' ' || c == ' ' || c == ' ' || c == ' ' ||
  c == ' ' || c == ' ' || c == ' ' || c == ' ' || c == ' ' ||
  c == ' ' || c == '　'

/-- A rule's pattern: either a literal string (all table entries but one), or
the look-around pattern of the "Target in table" entry. -/
inductive Pat where
  | lit (p : List Char)
  | targetInTable

/-- One entry of the replacement table: pattern, replacement, description. -/
structure Rule where
  pat : Pat
  repl : List Char
  desc : String

/-- Number of leftmost non-overlapping occurrences of the literal `p` in the
text (the count `re.findall` returns for a literal pattern).  The `skip`
argument is the number of characters of a just-matched occurrence still to be
consumed. -/
def countLitAux (p : List Char) : Nat → List Char → Nat
  | _, [] => 0
  | n + 1, _ :: rest => countLitAux p n rest
  | 0, c :: rest =>
    if p.isPrefixOf (c :: rest) then 1 + countLitAux p (p.length - 1) rest
    else countLitAux p 0 rest

/-- Replace every leftmost non-overlapping occurrence of the literal `p` by
`r` (what `re.sub` does for a literal pattern). -/
def subLitAux (p r : List Char) : Nat → List Char → List Char
  | n + 1, _ :: rest => subLitAux p r n rest
  | _, [] => []
  | 0, c :: rest =>
    if p.isPrefixOf (c :: rest) then r ++ subLitAux p r (p.length - 1) rest
    else c :: subLitAux p r 0 rest

/-- Try to match the consumed part of the "Target in table" pattern at the
head of `l`: a greedy whitespace run, two question marks, a greedy whitespace
run, with a pipe immediately after (look-ahead, not consumed).  Returns the
length of the consumed match.  The look-behind for a pipe is checked by the
caller. -/
def tabMatch (l : List Char) : Option Nat :=
  let a := (l.takeWhile isSpaceChar).length
  match l.drop a with
  | '?' :: '?' :: l2 =>
    let b := (l2.takeWhile isSpaceChar).length
    match l2.drop b with
    | '|' :: _ => some (a + 2 + b)
    | _ => none
  | _ => none

/-- Count of the leftmost non-overlapping matches of the "Target in table"
pattern.  `prev` is the character preceding the current position (the
look-behind witness); `skip` as in `countLitAux`. -/
def countTabAux : Option Char → Nat → List Char → Nat
  | _, _, [] => 0
  | _, n + 1, c :: rest => countTabAux (some c) n rest
  | prev, 0, c :: rest =>
    if prev = some '|' then
      match tabMatch (c :: rest) with
      | some n => 1 + countTabAux (some c) (n - 1) rest
      | none => countTabAux (some c) 0 rest
    else countTabAux (some c) 0 rest

/-- Substitution for the "Target in table" pattern: each match is replaced by
`r`, scanning resumes after the consumed match (the look-ahead pipe is not
consumed). -/
def subTabAux (r : List Char) : Option Char → Nat → List Char → List Char
  | _, n + 1, c :: rest => subTabAux r (some c) n rest
  | _, _, [] => []
  | prev, 0, c :: rest =>
    if prev = some '|' then
      match tabMatch (c :: rest) with
      | some n => r ++ subTabAux r (some c) (n - 1) rest
      | none => c :: subTabAux r (some c) 0 rest
    else c :: subTabAux r (some c) 0 rest

/-- `len(re.findall(pattern, t))` for a table pattern. -/
def countPat : Pat → List Char → Nat
  | .lit p, t => countLitAux p 0 t
  | .targetInTable, t => countTabAux none 0 t

/-- `re.sub(pattern, r, t)` for a table pattern. -/
def subPat : Pat → List Char → List Char → List Char
  | .lit p, r, t => subLitAux p r 0 t
  | .targetInTable, r, t => subTabAux r none 0 t

/-- The REPLACEMENTS table of the source, byte for byte: the replacement
strings are the literal (corrupted) text of the source file, in which several
replacements coincide with their own pattern. -/
def REPLACEMENTS : List Rule := [
  ⟨.lit "???".data, "???".data, "Tree branch with line"⟩,
  ⟨.lit "?   ?".data, "?   ?".data, "Tree vertical + branch"⟩,
  ⟨.lit "?   ".data, "?   ".data, "Tree vertical with spaces"⟩,
  ⟨.lit "? **Teaches**".data, "?? **Teaches**".data, "Books emoji"⟩,
  ⟨.lit "? **Demonstrates**".data, "?? **Demonstrates**".data, "Light bulb emoji"⟩,
  ⟨.lit "? **Engages**".data, "?? **Engages**".data, "Handshake emoji"⟩,
  ⟨.lit "? **Guides**".data, "?? **Guides**".data, "Graduation cap emoji"⟩,
  ⟨.lit "? **Inspires**".data, "? **Inspires**".data, "Sparkles emoji"⟩,
  ⟨.lit "extraordinary! ??".data, "extraordinary! ??".data, "Rocket emoji"⟩,
  ⟨.lit "### ?? **Vision Statement**".data, "### ?? **Vision Statement**".data,
    "Target emoji"⟩,
  ⟨.lit "## ?? **Vision Statement**".data, "### ?? **Vision Statement**".data,
    "Target emoji (alternate)"⟩,
  ⟨.targetInTable, " ?? ".data, "Target in table"⟩,
  ⟨.lit "- ? Complete".data, "- ? Complete".data, "Check mark"⟩,
  ⟨.lit "- ? Planned".data, "- ? Planned".data, "Hourglass"⟩,
  ⟨.lit "- ? Partial".data, "- ?? Partial".data, "Yellow circle"⟩]

/-- The replacement loop of `fix_file`: for each rule in table order, count
the matches of its pattern in the current text; when the count is positive,
substitute the pattern in the current text and add the count to the running
total `acc`.  Returns the final text and the accumulated count. -/
def runRulesAcc : List Rule → List Char → Nat → List Char × Nat
  | [], t, acc => (t, acc)
  | r :: rs, t, acc =>
    let m := countPat r.pat t
    runRulesAcc rs (if 0 < m then subPat r.pat r.repl t else t) (acc + m)

/-- The final text produced by the replacement loop on input `t`. -/
def fixedText (t : List Char) : List Char :=
  (runRulesAcc REPLACEMENTS t 0).1

/-- The "label: N replacements" report lines `fix_file` prints: one entry per
rule whose match count in the current text is positive, in table order. -/
def reportLines : List Rule → List Char → List (String × Nat)
  | [], _ => []
  | r :: rs, t =>
    let m := countPat r.pat t
    if 0 < m then (r.desc, m) :: reportLines rs (subPat r.pat r.repl t)
    else reportLines rs t

/-- The pair `(changed, replacement_count)` returned by `fix_file` on the text
read from the file: `(True, replacement_count)` when the final text differs
from the original, `(False, 0)` otherwise. -/
def fix_file (t : List Char) : Bool × Nat :=
  let res := runRulesAcc REPLACEMENTS t 0
  if res.1 = t then (false, 0) else (true, res.2)

/-- The behaviour the specification describes for the Text Fixer's output
text: each rule, in table order, substitutes all non-overlapping matches of
its pattern in the current (possibly already-modified-by-earlier-rules) text;
the result is the left-to-right sequential composition of the rules. -/
def applyAllSequential : List Rule → List Char → List Char
  | [], t => t
  | r :: rs, t => applyAllSequential rs (subPat r.pat r.repl t)

/-- The effect of `fix_file` on the file's stored content, given the dry-run
flag: when the final text differs from the original the file is rewritten
unless the run is a dry run; the returned pair is as in `fix_file`. -/
def fixFileStore (stored : List Char) (dryRun : Bool) : List Char × Bool × Nat :=
  let res := runRulesAcc REPLACEMENTS stored 0
  if res.1 = stored then (stored, false, 0)
  else ((if dryRun then stored else res.1), true, res.2)

/-- The outside world of one `fix_file` call: the outcome of reading the file
(`none` when reading or decoding raises), and whether a write would succeed. -/
structure FileAccess where
  readResult : Option (List Char)
  writeOk : Bool

/-- `fix_file` with its exception handler: a read/decode failure, or a write
failure on a changed file in a live run, is caught and yields
`(False, 0)`. -/
def fixFileSafe (f : FileAccess) (dryRun : Bool) : Bool × Nat :=
  match f.readResult with
  | none => (false, 0)
  | some t =>
    let res := runRulesAcc REPLACEMENTS t 0
    if res.1 = t then (false, 0)
    else if dryRun then (true, res.2)
    else if f.writeOk then (true, res.2)
    else (false, 0)

/-- The per-file loop of `main`: each file is passed to `fixFileSafe`; when it
reports a change, `fixed_count` gains one and the file's replacement count is
added to `total_replacements`.  Returns the per-file results and the two
summary counters. -/
def mainLoop (dryRun : Bool) : List FileAccess → Nat → Nat → List (Bool × Nat) × Nat × Nat
  | [], fixedCount, totalRepl => ([], fixedCount, totalRepl)
  | f :: rest, fixedCount, totalRepl =>
    let res := fixFileSafe f dryRun
    let more := mainLoop dryRun rest
      (if res.1 then fixedCount + 1 else fixedCount)
      (if res.1 then totalRepl + res.2 else totalRepl)
    (res :: more.1, more.2)

/-- The `(files fixed, total replacements)` summary printed by `main`. -/
def summaryCounts (dryRun : Bool) (files : List FileAccess) : Nat × Nat :=
  (mainLoop dryRun files 0 0).2

/-- What the run computes for one document: its final text and the
`(changed, replacement_count)` pair. -/
def textOutcome (t : List Char) : List Char × Bool × Nat :=
  (fixedText t, (fix_file t).1, (fix_file t).2)

/-- The per-file loop of `main`, viewed on the documents' text contents: each
content is run through the Text Fixer while the two summary counters are
threaded along. -/
def processTexts : List (List Char) → Nat → Nat → List (List Char × Bool × Nat) × Nat × Nat
  | [], fixedCount, totalRepl => ([], fixedCount, totalRepl)
  | t :: rest, fixedCount, totalRepl =>
    let res := fix_file t
    let more := processTexts rest
      (if res.1 then fixedCount + 1 else fixedCount)
      (if res.1 then totalRepl + res.2 else totalRepl)
    ((fixedText t, res.1, res.2) :: more.1, more.2)

/-- A literal rule with no match in the text substitutes nothing. -/
theorem countLitAux_zero_sub (p r t : List Char)
    (h : countLitAux p 0 t = 0) : subLitAux p r 0 t = t := by
  induction t with
  | nil => simp [subLitAux]
  | cons c rest ih =>
    by_cases hp : p.isPrefixOf (c :: rest)
    · exfalso
      simp [countLitAux, hp] at h
    · simp [countLitAux, hp] at h
      simp [subLitAux, hp, ih h]

/-- One scan step of `subTabAux` at an unskipped position, as an equation. -/
theorem subTabAux_cons (r : List Char) (prev : Option Char) (c : Char) (rest : List Char) :
    subTabAux r prev 0 (c :: rest) =
      if prev = some '|' then
        (match tabMatch (c :: rest) with
         | some n => r ++ subTabAux r (some c) (n - 1) rest
         | none => c :: subTabAux r (some c) 0 rest)
      else c :: subTabAux r (some c) 0 rest := rfl

/-- One scan step of `countTabAux` at an unskipped position, as an equation. -/
theorem countTabAux_cons (prev : Option Char) (c : Char) (rest : List Char) :
    countTabAux prev 0 (c :: rest) =
      if prev = some '|' then
        (match tabMatch (c :: rest) with
         | some n => 1 + countTabAux (some c) (n - 1) rest
         | none => countTabAux (some c) 0 rest)
      else countTabAux (some c) 0 rest := rfl

/-- The table rule with no match in the text substitutes nothing. -/
theorem countTabAux_zero_sub (r t : List Char) :
    ∀ prev, countTabAux prev 0 t = 0 → subTabAux r prev 0 t = t := by
  induction t with
  | nil => intro prev _; rfl
  | cons c rest ih =>
    intro prev h
    rw [countTabAux_cons] at h
    rw [subTabAux_cons]
    by_cases hp : prev = some '|'
    · rw [if_pos hp] at h
      rw [if_pos hp]
      rcases htm : tabMatch (c :: rest) with _ | n
      · rw [htm] at h
        have h2 : countTabAux (some c) 0 rest = 0 := h
        show c :: subTabAux r (some c) 0 rest = c :: rest
        rw [ih _ h2]
      · rw [htm] at h
        have h2 : 1 + countTabAux (some c) (n - 1) rest = 0 := h
        omega
    · rw [if_neg hp] at h
      rw [if_neg hp, ih _ h]

/-- A rule with no match leaves the text unchanged. -/
theorem countPat_zero_subPat (pt : Pat) (r t : List Char)
    (h : countPat pt t = 0) : subPat pt r t = t := by
  cases pt with
  | lit p => exact countLitAux_zero_sub p r t h
  | targetInTable => exact countTabAux_zero_sub r t none h

/-- The accumulated count never decreases along the replacement loop. -/
theorem le_runRulesAcc_snd (rs : List Rule) :
    ∀ t acc, acc ≤ (runRulesAcc rs t acc).2 := by
  induction rs with
  | nil => intro t acc; simp [runRulesAcc]
  | cons r rs ih =>
    intro t acc
    simp only [runRulesAcc]
    exact le_trans (Nat.le_add_right acc _) (ih _ _)

/-- When the loop accumulates no matches at all, the text survives
unchanged. -/
theorem runRulesAcc_snd_eq_imp_fst (rs : List Rule) :
    ∀ t acc, (runRulesAcc rs t acc).2 = acc → (runRulesAcc rs t acc).1 = t := by
  induction rs with
  | nil => intro t acc _; rfl
  | cons r rs ih =>
    intro t acc h
    simp only [runRulesAcc] at h ⊢
    have hm : countPat r.pat t = 0 := by
      have := le_runRulesAcc_snd rs
        (if 0 < countPat r.pat t then subPat r.pat r.repl t else t)
        (acc + countPat r.pat t)
      omega
    rw [hm] at h ⊢
    simp only [Nat.lt_irrefl, if_false, Nat.add_zero] at h ⊢
    exact ih t acc h

/-- The text computed by the replacement loop is the sequential composition
of the rules, the conditional substitution being the identity exactly when
the rule has no match. -/
theorem runRulesAcc_fst_seq (rs : List Rule) :
    ∀ t acc, (runRulesAcc rs t acc).1 = applyAllSequential rs t := by
  induction rs with
  | nil => intro t acc; rfl
  | cons r rs ih =>
    intro t acc
    simp only [runRulesAcc, applyAllSequential]
    by_cases hm : 0 < countPat r.pat t
    · rw [if_pos hm, ih]
    · rw [if_neg hm, ih,
        countPat_zero_subPat r.pat r.repl t (Nat.eq_zero_of_not_pos hm)]

/-- The per-file results of the loop over document contents do not depend on
the summary counters being threaded along. -/
theorem processTexts_fst (l : List (List Char)) :
    ∀ fc tr, (processTexts l fc tr).1 = l.map textOutcome := by
  induction l with
  | nil => intro fc tr; rfl
  | cons t rest ih =>
    intro fc tr
    simp only [processTexts, List.map_cons, textOutcome]
    rw [ih]

/-- Looking up the element placed between two list fragments. -/
theorem getElem?_append_cons {α : Type} (l1 l2 : List α) (x : α) :
    (l1 ++ x :: l2)[l1.length]? = some x := by
  induction l1 with
  | nil => simp
  | cons a l1 ih => simpa using ih

/-- A file on which `fix_file` reports `(False, 0)` contributes nothing to
the summary counters of the main loop. -/
theorem mainLoop_skip (dry : Bool) (f : FileAccess)
    (hf : fixFileSafe f dry = (false, 0)) :
    ∀ (pre post : List FileAccess) (fc tr : Nat),
      (mainLoop dry (pre ++ f :: post) fc tr).2 = (mainLoop dry (pre ++ post) fc tr).2 := by
  intro pre
  induction pre with
  | nil =>
    intro post fc tr
    simp [mainLoop, hf]
  | cons p pre ih =>
    intro post fc tr
    simp only [List.cons_append, mainLoop]
    exact ih post _ _

/-- A read/decode failure, or a write failure on a changed file in a live
run, is caught by the exception handler of `fix_file`, which then returns
`(False, 0)`. -/
theorem fixFileSafe_err (f : FileAccess) (dry : Bool)
    (h : f.readResult = none ∨ (dry = false ∧ f.writeOk = false)) :
    fixFileSafe f dry = (false, 0) := by
  rcases h with h | ⟨hd, hw⟩
  · simp [fixFileSafe, h]
  · rcases hr : f.readResult with _ | t
    · simp [fixFileSafe, hr]
    · simp only [fixFileSafe, hr, hd, hw]
      split
      · rfl
      · simp

/-- Claim C1: the replacement count returned by `fix_file` equals the sum,
over the rules in table order, of the match counts of each rule's pattern in
the current text.  Refuted by the code at the input "- ? Complete": the
per-rule match sum is 1 (the Check-mark rule matches once) but, the rule's
corrupted replacement text being identical to the matched text, the final
text equals the original and `fix_file` returns the pair `(False, 0)`. -/
theorem claim_C1_count_eval :
    fix_file "- ? Complete".data = (false, 0) ∧
    (runRulesAcc REPLACEMENTS "- ? Complete".data 0).2 = 1 := by decide

/-- Claim C2: idempotence of the Text Fixer.  Refuted by the code: on the
input "? **Teaches**" the first application yields "?? **Teaches**" with the
pair `(True, 1)`, and applying the fixer to that output again matches the
Books-emoji pattern (its corrupted replacement re-contains the pattern) and
yields `(True, 1)` instead of `(False, 0)`. -/
theorem claim_C2_idem_eval :
    fix_file "? **Teaches**".data = (true, 1) ∧
    fix_file (fixedText "? **Teaches**".data) = (true, 1) := by decide

/-- Claim C3: on the single line "- ? Complete" the fixer reports one
replacement under the label "Check mark" and returns `(True, 1)`.  The code
does print the Check-mark report line, but the corrupted replacement equals
the matched text, so the content never changes and `fix_file` returns
`(False, 0)`, not `(True, 1)`. -/
theorem claim_C3_checkmark_eval :
    reportLines REPLACEMENTS "- ? Complete".data = [("Check mark", 1)] ∧
    fix_file "- ? Complete".data = (false, 0) := by decide

/-- Claim C4: the changed flag returned by `fix_file` is true exactly when
the final text differs from the original input text, and a text no rule
changes yields the pair `(False, 0)`. -/
theorem claim_C4_changed_iff (t : List Char) :
    ((fix_file t).1 = true ↔ fixedText t ≠ t) ∧
    (fixedText t = t → fix_file t = (false, 0)) := by
  by_cases h : (runRulesAcc REPLACEMENTS t 0).1 = t <;>
    simp [fix_file, fixedText, h]

theorem claim_C4_witness : fix_file "no corruption here".data = (false, 0) :=
  (claim_C4_changed_iff "no corruption here".data).2 (by decide)

/-- Claim C5: the output text of the Text Fixer equals the left-to-right
sequential composition of the rules, each rule substituting all
non-overlapping matches of its pattern in the current text produced by the
earlier rules. -/
theorem claim_C5_sequential (t : List Char) :
    fixedText t = applyAllSequential REPLACEMENTS t :=
  runRulesAcc_fst_seq REPLACEMENTS t 0

/-- Claim C6: on the input "## ?? **Vision Statement**" the fixer produces
"### ?? **Vision Statement**", and the two Vision-Statement rules combine
without double-counting: the replacement count is 1. -/
theorem claim_C6_vision :
    fix_file "## ?? **Vision Statement**".data = (true, 1) ∧
    fixedText "## ?? **Vision Statement**".data
      = "### ?? **Vision Statement**".data := by decide

/-- Claim C7: a dry run never alters the stored file content, whatever the
input text, and the `(changed, replacement_count)` pair it reports equals
the pair of a live run on the same input text. -/
theorem claim_C7_dry_run (stored : List Char) :
    (fixFileStore stored true).1 = stored ∧
    (fixFileStore stored true).2 = (fixFileStore stored false).2 := by
  by_cases h : (runRulesAcc REPLACEMENTS stored 0).1 = stored <;>
    simp [fixFileStore, h]

/-- Claim C8: determinism and isolation.  The outcome computed for a
document's text within the main loop is `textOutcome t`, a function of that
text alone: it is the same in any two runs, whatever other files are
processed around it, in whatever order, and whatever the summary counters. -/
theorem claim_C8_deterministic (pre post pre2 post2 : List (List Char))
    (t : List Char) (fc tr fc2 tr2 : Nat) :
    ((processTexts (pre ++ t :: post) fc tr).1)[pre.length]? = some (textOutcome t) ∧
    ((processTexts (pre ++ t :: post) fc tr).1)[pre.length]? =
      ((processTexts (pre2 ++ t :: post2) fc2 tr2).1)[pre2.length]? := by
  have key : ∀ (l1 l2 : List (List Char)) (a b : Nat),
      ((processTexts (l1 ++ t :: l2) a b).1)[l1.length]? = some (textOutcome t) := by
    intro l1 l2 a b
    rw [processTexts_fst, List.map_append, List.map_cons]
    have := getElem?_append_cons (l1.map textOutcome) (l2.map textOutcome) (textOutcome t)
    rwa [List.length_map] at this
  exact ⟨key pre post fc tr, by rw [key pre post fc tr, key pre2 post2 fc2 tr2]⟩

/-- Claim C9: a read/decode failure, or a write failure, is not propagated by
`fix_file`: the file yields `(False, 0)`, contributes zero changed files and
zero replacements to the run summary, and the run continues over the
remaining files. -/
theorem claim_C9_errors (pre post : List FileAccess) (f : FileAccess) (dry : Bool)
    (h : f.readResult = none ∨ (dry = false ∧ f.writeOk = false)) :
    fixFileSafe f dry = (false, 0) ∧
    summaryCounts dry (pre ++ f :: post) = summaryCounts dry (pre ++ post) :=
  ⟨fixFileSafe_err f dry h,
   mainLoop_skip dry f (fixFileSafe_err f dry h) pre post 0 0⟩

theorem claim_C9_witness :
    fixFileSafe ⟨none, true⟩ false = (false, 0) ∧
    summaryCounts false [⟨none, true⟩] = summaryCounts false [] :=
  claim_C9_errors [] [] ⟨none, true⟩ false (Or.inl rfl)

/-- Claim C10: result invariant of `fix_file`: when the changed flag is
false the returned count is 0, and when the changed flag is true the
returned count is at least 1. -/
theorem claim_C10_invariant (t : List Char) :
    ((fix_file t).1 = false → (fix_file t).2 = 0) ∧
    ((fix_file t).1 = true → 1 ≤ (fix_file t).2) := by
  by_cases h : (runRulesAcc REPLACEMENTS t 0).1 = t
  · simp [fix_file, h]
  · constructor
    · intro hf
      simp [fix_file, h] at hf
    · intro _
      have hpos : 1 ≤ (runRulesAcc REPLACEMENTS t 0).2 := by
        rcases Nat.eq_zero_or_pos (runRulesAcc REPLACEMENTS t 0).2 with h0 | h1
        · exact absurd (runRulesAcc_snd_eq_imp_fst REPLACEMENTS t 0 h0) h
        · exact h1
      simpa [fix_file, h] using hpos

theorem claim_C10_witness :
    (fix_file "no corruption".data).2 = 0 ∧
    1 ≤ (fix_file "? **Teaches**".data).2 :=
  ⟨(claim_C10_invariant "no corruption".data).1 (by decide),
   (claim_C10_invariant "? **Teaches**".data).2 (by decide)⟩

end FixEncoding
